import Mathlib

/-!
Verification of the core message/session subsystems of the Sophon agent
runtime (a TypeScript repository), via a shallow embedding in Lean.

Each definition translates one function of the source:

* `src/src/core/session-manager.ts` — `findSafeSplitPoint`,
  `getMessagesToCompress`, `applyCompression`, `sanitizeMessageStart`,
  `getHistory`.
* `src/src/core/async-queue.ts` — the `AsyncQueue` (queue/waiters/closed
  state, `enqueue`, `dequeue`, the `checkClosed` microtask, `close`),
  modelled as an explicit state machine whose microtask scheduling is an
  event (`QOp.check`).
* `src/src/core/message-bus.ts` — `publishInbound`, `publishOutbound`.
* the storage-backed `Scheduler` (`src/unnamed/part_002`, the variant the
  application wires: `app.ts` constructs it with a `StorageProvider`) —
  `onTaskTrigger`.
* `src/src/core/agent-loop.ts` — `runLLMLoop` and the outbound-reply part
  of `runDispatchPipeline`/`processMessage`.
* `src/src/core/subagent-manager.ts` — `runSubagentLoop`, the
  announcement decision at the end of `runSubagent`, `announceResult`,
  the timeout callback, `cancelById` and `cleanup`.

Conventions of the embedding: the LLM provider is an oracle
`script : Nat → Except String LLMResponse` indexed by iteration (an
`.error` is a thrown provider error); tool execution is a total function
(the source catches tool errors and turns them into result text); the
cooperative `AbortSignal` is a function `signal : Nat → Bool` sampled at
the source's cancellation checkpoints, numbered by a running counter;
`Date.now()` and `randomUUID()` are threaded as parameters; generated
message ids are abstracted to `none` (they influence nothing proved here).
-/

namespace Sophon

/-- Message roles, from `src/src/types/message.ts` (`MessageRole`). -/
inductive Role where
  | system
  | user
  | assistant
  | tool
deriving DecidableEq, Repr

/-- A tool call requested by the LLM (`ToolCall` in `types/message.ts`);
`arguments` (a JSON record) is modelled as an association list. -/
structure ToolCall where
  id : String
  name : String
  arguments : List (String × String) := []
deriving DecidableEq, Repr

/-- A chat message (`ChatMessage` in `types/message.ts`). `content` is
`string | null`; the optional `toolCalls` array is modelled as a list,
with `[]` standing for both `undefined` and an empty array (the source
only ever tests `toolCalls?.length`, which conflates the two). -/
structure ChatMessage where
  id : Option String := none
  role : Role
  content : Option String := none
  toolCalls : List ToolCall := []
  toolCallId : Option String := none
  name : Option String := none
deriving DecidableEq, Repr

/-- A persisted conversation summary (`SessionSummary` in
`session-manager.ts`). -/
structure SessionSummary where
  content : String
  compressedCount : Nat
  lastUpdated : Nat
deriving DecidableEq, Repr

/-- Runtime session metadata (`SessionMeta` in `session-manager.ts`),
restricted to the fields the verified operations read or write. -/
structure SessionMeta where
  id : String
  createdAt : Nat
  updatedAt : Nat
  channel : String
  messageCount : Nat
  userId : Option String := none
deriving DecidableEq, Repr

/-- A session (`Session` in `session-manager.ts`). -/
structure Session where
  meta : SessionMeta
  messages : List ChatMessage
  summary : Option SessionSummary := none
deriving DecidableEq, Repr

/-- Whether the message at index `i` is a tool-role message
(`messages[i]?.role === 'tool'`). -/
def isToolAt (messages : List ChatMessage) (i : Nat) : Bool :=
  match messages.get? i with
  | some m => m.role == .tool
  | none => false

/-- Whether the message at index `i` is an assistant message carrying tool
calls (`messages[i]?.role === 'assistant' && messages[i]?.toolCalls?.length`). -/
def isAssistantWithToolsAt (messages : List ChatMessage) (i : Nat) : Bool :=
  match messages.get? i with
  | some m => m.role == .assistant && !m.toolCalls.isEmpty
  | none => false

/-- The first while-loop of `SessionManager.findSafeSplitPoint`
(session-manager.ts:503-505): walk the index left while it sits on a
tool-role message, stopping at index 0. -/
def walkPastTools (messages : List ChatMessage) : Nat → Nat
  | 0 => 0
  | idx + 1 =>
    if isToolAt messages (idx + 1) then walkPastTools messages idx else idx + 1

/-- `SessionManager.findSafeSplitPoint` (session-manager.ts:498-514): walk
left past tool messages, then one further step if the landing message is
an assistant with tool calls; the result is never negative (`Math.max`). -/
def findSafeSplitPoint (messages : List ChatMessage) (targetIndex : Nat) : Nat :=
  let idx := walkPastTools messages targetIndex
  if idx != 0 && isAssistantWithToolsAt messages idx then idx - 1 else idx

/-- `SessionManager.getMessagesToCompress` (session-manager.ts:434-448).
The `Option Session` argument is the result of `this.sessions.get(sessionId)`. -/
def getMessagesToCompress (sess : Option Session) (keepRecent : Nat) :
    Option (List ChatMessage) :=
  match sess with
  | none => none
  | some s =>
    let total := s.messages.length
    if total ≤ keepRecent then none
    else
      let splitIndex := findSafeSplitPoint s.messages (total - keepRecent)
      if splitIndex = 0 then none
      else some (s.messages.take splitIndex)

/-- `SessionManager.applyCompression` (session-manager.ts:457-490):
accumulate the compressed count onto any previous summary, drop the head
`compressedMessageCount` messages from memory, update the meta counters.
`now` stands for `Date.now()`; a missing session is left unchanged. -/
def applyCompression (sess : Option Session) (summaryContent : String)
    (compressedMessageCount : Nat) (now : Nat) : Option Session :=
  match sess with
  | none => none
  | some s =>
    let prevCompressed := match s.summary with
      | some sum => sum.compressedCount
      | none => 0
    let newMessages := s.messages.drop compressedMessageCount
    some { s with
      summary := some {
        content := summaryContent,
        compressedCount := prevCompressed + compressedMessageCount,
        lastUpdated := now },
      messages := newMessages,
      meta := { s.meta with messageCount := newMessages.length, updatedAt := now } }

/-- The first while-loop of `SessionManager.sanitizeMessageStart`
(session-manager.ts:352-354): drop the maximal prefix of tool-role
messages. -/
def dropLeadingTools : List ChatMessage → List ChatMessage
  | [] => []
  | m :: rest => if m.role == .tool then dropLeadingTools rest else m :: rest

/-- The counting loop of `sanitizeMessageStart` (session-manager.ts:363):
the number of consecutive tool-role messages at the head of the list. -/
def countLeadingTools : List ChatMessage → Nat
  | [] => 0
  | m :: rest => if m.role == .tool then countLeadingTools rest + 1 else 0

/-- The second half of `SessionManager.sanitizeMessageStart`
(session-manager.ts:356-371), applied after the leading tools are
dropped: if the head is an assistant with tool calls whose following
tool results are fewer than expected, skip the whole (incomplete) chain. -/
def sanitizeChainCheck : List ChatMessage → List ChatMessage
  | [] => []
  | first :: tail =>
    if first.role == .assistant && !first.toolCalls.isEmpty then
      let expectedToolCount := first.toolCalls.length
      let actualToolCount := countLeadingTools tail
      if actualToolCount < expectedToolCount then tail.drop actualToolCount
      else first :: tail
    else first :: tail

/-- `SessionManager.sanitizeMessageStart` (session-manager.ts:348-374):
skip leading tool messages, then drop an incomplete head chain. -/
def sanitizeMessageStart (messages : List ChatMessage) : List ChatMessage :=
  sanitizeChainCheck (dropLeadingTools messages)

/-- The truthiness test `session.summary?.content` used by `getHistory`
(session-manager.ts:311,319): the summary text, provided a summary exists
and its content is a nonempty string. -/
def summaryText (s : Session) : Option String :=
  match s.summary with
  | some sum => if sum.content = "" then none else some sum.content
  | none => none

/-- The synthetic system message `getHistory` injects for the summary
(session-manager.ts:312-315). -/
def summarySystemMessage (c : String) : ChatMessage :=
  { role := .system,
    content := some ("[Conversation Summary]\nThe following is a summary of the earlier conversation that is no longer in the context window:\n\n" ++ c) }

/-- JavaScript `array.slice(-n)` for a natural `n`: the last `n` elements,
except that `slice(-0)` is `slice(0)`, the whole array. -/
def jsSliceNeg (n : Nat) (xs : List α) : List α :=
  if n = 0 then xs else xs.drop (xs.length - n)

/-- The slot computation of `getHistory` (session-manager.ts:319-321):
one slot is reserved for the summary message when one will be injected.
`memoryWindow` is positive by the config schema (`z.number().positive()`). -/
def availableSlots (s : Session) (memoryWindow : Nat) : Nat :=
  if (summaryText s).isSome then memoryWindow - 1 else memoryWindow

/-- The windowing step of `SessionManager.getHistory`
(session-manager.ts:323-328): keep the most recent `availableSlots`
messages (`messages.slice(-availableSlots)`). -/
def historyWindow (s : Session) (memoryWindow : Nat) : List ChatMessage :=
  if s.messages.length ≤ availableSlots s memoryWindow then s.messages
  else jsSliceNeg (availableSlots s memoryWindow) s.messages

/-- `SessionManager.getHistory` (session-manager.ts:301-336): optional
synthetic summary message, then the sanitised window. -/
def getHistory (sess : Option Session) (memoryWindow : Nat) : List ChatMessage :=
  match sess with
  | none => []
  | some s =>
    let base := match summaryText s with
      | some c => [summarySystemMessage c]
      | none => []
    base ++ sanitizeMessageStart (historyWindow s memoryWindow)

/-- Metadata of a bus message (`Record<string, unknown>` in the source),
restricted to the keys the verified components read or write. -/
structure MessageMetadata where
  scheduledTaskId : Option String := none
  creatorUserId : Option String := none
  isSubagentResult : Bool := false
  taskId : Option String := none
  label : Option String := none
  status : Option String := none
deriving DecidableEq, Repr

/-- An inbound bus message (`InboundMessage` in `types/message.ts`). -/
structure InboundMessage where
  id : String
  channel : String
  sessionId : String
  text : String
  sender : String
  timestamp : Nat
  metadata : MessageMetadata := {}
deriving DecidableEq, Repr

/-- An outbound bus message (`OutboundMessage` in `types/message.ts`). -/
structure OutboundMessage where
  id : String
  channel : String
  sessionId : String
  text : String
  timestamp : Nat
deriving DecidableEq, Repr

/-! ### The AsyncQueue (`src/src/core/async-queue.ts`)

The queue's mutable state is `queue`, `waiters` and `closed`. A parked
`dequeue` promise is identified by a number; its one `checkClosed`
callback, scheduled with `queueMicrotask`, is recorded in
`pendingChecks` until the event (`QOp.check`) runs it. A promise settles
at most once (`QState.settled`), matching JavaScript `resolve`/`reject`
semantics; settlements are recorded in `resolved`/`rejected`. -/

/-- The state of one `AsyncQueue<α>` plus the settlement ledger of its
`dequeue` promises. -/
structure QState (α : Type) where
  queue : List α := []
  waiters : List Nat := []
  closed : Bool := false
  pendingChecks : List Nat := []
  resolved : List (Nat × α) := []
  rejected : List Nat := []

/-- Whether the dequeue promise `id` has already settled. -/
def QState.settled (s : QState α) (id : Nat) : Bool :=
  (s.resolved.map Prod.fst).contains id || s.rejected.contains id

/-- Resolve promise `id` with value `x` (a no-op if already settled). -/
def resolveWaiter (id : Nat) (x : α) (s : QState α) : QState α :=
  if s.settled id then s else { s with resolved := s.resolved ++ [(id, x)] }

/-- Reject promise `id` (a no-op if already settled). -/
def rejectWaiter (id : Nat) (s : QState α) : QState α :=
  if s.settled id then s else { s with rejected := s.rejected ++ [id] }

/-- `AsyncQueue.enqueue` (async-queue.ts:30-42): throw if closed, deliver
directly to the first waiter if any, else push onto the buffer. -/
def enqueue (x : α) (s : QState α) : Except String (QState α) :=
  if s.closed then .error "队列已关闭，无法入队"
  else
    match s.waiters with
    | id :: rest => .ok (resolveWaiter id x { s with waiters := rest })
    | [] => .ok { s with queue := s.queue ++ [x] }

/-- `AsyncQueue.dequeue` (async-queue.ts:48-80) at the moment it is
called: take the buffered head if any; throw if closed and empty;
otherwise park the promise `id` as a waiter and schedule its
`checkClosed` microtask. -/
def dequeueStart (id : Nat) (s : QState α) : QState α :=
  match s.queue with
  | x :: rest => resolveWaiter id x { s with queue := rest }
  | [] =>
    if s.closed then rejectWaiter id s
    else { s with waiters := s.waiters ++ [id],
                  pendingChecks := s.pendingChecks ++ [id] }

/-- The `checkClosed` callback of waiter `id` running
(async-queue.ts:65-73,78): if the queue is closed, splice the waiter out
(when still present) and call `reject` — which settles the promise only
if it has not settled yet. -/
def runCheckClosed (id : Nat) (s : QState α) : QState α :=
  if s.pendingChecks.contains id then
    let s1 := { s with pendingChecks := s.pendingChecks.erase id }
    if s1.closed then rejectWaiter id { s1 with waiters := s1.waiters.erase id }
    else s1
  else s

/-- `AsyncQueue.close` (async-queue.ts:94-102): set `closed`, then loop
over the waiters — the loop body is `void waiter`, which does nothing —
and drop the waiter list. No waiter is rejected here. -/
def closeQueue (s : QState α) : QState α :=
  { s with closed := true, waiters := [] }

/-- An event of the queue machine: an `enqueue`, the start of a
`dequeue`, a scheduled `checkClosed` microtask running, or `close`. -/
inductive QOp (α : Type) where
  | enq (x : α)
  | deq (id : Nat)
  | check (id : Nat)
  | close
deriving DecidableEq

/-- One event step. An `enqueue` that throws leaves the state unchanged
(the exception propagates to the producer). -/
def QOp.step : QOp α → QState α → QState α
  | .enq x, s =>
    match enqueue x s with
    | .ok s1 => s1
    | .error _ => s
  | .deq id, s => dequeueStart id s
  | .check id, s => runCheckClosed id s
  | .close, s => closeQueue s

/-- Run a sequence of queue events. -/
def runOps (ops : List (QOp α)) (s : QState α) : QState α :=
  ops.foldl (fun st op => op.step st) s

/-- `MessageBus.publishInbound` (message-bus.ts:43-46): a plain
`enqueue` onto the inbound queue. -/
def publishInbound (inboundQueue : QState InboundMessage)
    (message : InboundMessage) : Except String (QState InboundMessage) :=
  enqueue message inboundQueue

/-- `MessageBus.close` (message-bus.ts:168-178), restricted to the
inbound queue: `this.inboundQueue.close()`. -/
def busClose (inboundQueue : QState InboundMessage) : QState InboundMessage :=
  closeQueue inboundQueue

/-- `MessageBus.publishOutbound` (message-bus.ts:114-129). A handler is a
function that may throw (`Except String Unit`); no handler for the
channel logs a warning and returns; a handler error is logged and then
rethrown (`throw err`). -/
def publishOutbound (handlers : String → Option (OutboundMessage → Except String Unit))
    (message : OutboundMessage) : Except String Unit :=
  match handlers message.channel with
  | none => .ok ()
  | some handler =>
    match handler message with
    | .ok _ => .ok ()
    | .error err => .error err

/-! ### The Scheduler (`src/unnamed/part_002`, storage-backed)

`app.ts` constructs the Scheduler with a `StorageProvider`; its
`ScheduledTask` comes from `src/src/storage/storage-provider.ts` and
carries `creatorUserId`. -/

/-- `ScheduledTask` (storage-provider.ts:41-64). -/
structure ScheduledTask where
  id : String
  sessionId : String
  channel : String
  cronExpression : String
  description : String
  taskPrompt : String
  enabled : Bool
  createdAt : Nat
  lastRunAt : Option Nat := none
  runCount : Nat
  creatorUserId : Option String := none
deriving DecidableEq, Repr

/-- `Scheduler.onTaskTrigger` (part_002:227-253): update the run
statistics in memory, then publish an inbound message whose text is the
prefix `[定时任务: <description>]` plus a newline plus the task prompt,
with sender `"scheduler"` and metadata carrying the task id and the
creator user id. `now` stands for `Date.now()`, `uuid` for
`randomUUID()`; best-effort persistence is out of the model. -/
def onTaskTrigger (task : ScheduledTask) (now : Nat) (uuid : String) :
    ScheduledTask × InboundMessage :=
  let updated := { task with lastRunAt := some now, runCount := task.runCount + 1 }
  let taskHeader := "[定时任务: " ++ task.description ++ "]\n"
  (updated,
   { id := uuid,
     channel := task.channel,
     sessionId := task.sessionId,
     text := taskHeader ++ task.taskPrompt,
     sender := "scheduler",
     timestamp := now,
     metadata := { scheduledTaskId := some task.id,
                   creatorUserId := task.creatorUserId } })

/-! ### The agent loop (`src/src/core/agent-loop.ts`) -/

/-- The provider's response (`provider.chat` result): optional text and a
list of tool calls. -/
structure LLMResponse where
  content : Option String := none
  toolCalls : List ToolCall := []
deriving DecidableEq, Repr

/-- How a turn's LLM loop fails: a thrown provider error, or the
`AgentLoopError` thrown after `maxIterations` iterations
(agent-loop.ts:769-772). -/
inductive TurnError where
  | provider (msg : String)
  | iterationLimit (msg : String)
deriving DecidableEq, Repr

/-- The `message` carried by a turn error. -/
def TurnError.message : TurnError → String
  | .provider msg => msg
  | .iterationLimit msg => msg

/-- JavaScript `s || d` for an optional string: the default when the
string is absent or empty. -/
def jsStringOr (s : Option String) (d : String) : String :=
  match s with
  | some c => if c = "" then d else c
  | none => d

/-- The tool-execution for-loop shared by agent-loop.ts:712-764 and
subagent-manager.ts:382-408: before each tool call the abort signal is
checked (returning the cancellation marker), then the tool runs (errors
are caught and rendered into the result text, so execution is total) and
a tool-role message is appended. Returns `.inl t` when cancelled at
checkpoint time `t`, else `.inr` with the advanced time and messages. -/
def runToolsPhase (toolExec : ToolCall → String) (signal : Nat → Bool) :
    List ToolCall → Nat → List ChatMessage → Sum Nat (Nat × List ChatMessage)
  | [], t, msgs => .inr (t, msgs)
  | tc :: rest, t, msgs =>
    if signal t then .inl (t + 1)
    else
      runToolsPhase toolExec signal rest (t + 1)
        (msgs ++ [{ role := .tool, content := some (toolExec tc),
                    toolCallId := some tc.id, name := some tc.name }])

/-- `AgentLoop.runLLMLoop` (agent-loop.ts:630-773), with `fuel` the
remaining iterations (`maxIterations - i`), `i` the 0-based iteration,
`t` the checkpoint counter and `msgs` the live request vector. Exhausting
the fuel throws the iteration-limit `AgentLoopError`; a cancellation
checkpoint returns the marker text `[会话已取消]`; an empty tool-call
list returns `content || ''` as the terminal reply. -/
def runLLMLoopAux (maxIterations : Nat) (script : Nat → Except String LLMResponse)
    (toolExec : ToolCall → String) (signal : Nat → Bool) :
    Nat → Nat → Nat → List ChatMessage → Except TurnError (String × Nat)
  | 0, _, _, _ =>
    .error (.iterationLimit ("超过最大迭代次数 (" ++ toString maxIterations ++ ")"))
  | fuel + 1, i, t, msgs =>
    if signal t then .ok ("[会话已取消]", t + 1)
    else
      match script i with
      | .error msg => .error (.provider msg)
      | .ok resp =>
        if signal (t + 1) then .ok ("[会话已取消]", t + 2)
        else if resp.toolCalls.isEmpty then .ok (resp.content.getD "", t + 2)
        else
          let msgs1 := msgs ++ [{ role := .assistant, content := resp.content,
                                  toolCalls := resp.toolCalls }]
          match runToolsPhase toolExec signal resp.toolCalls (t + 2) msgs1 with
          | .inl tCancel => .ok ("[会话已取消]", tCancel)
          | .inr (t2, msgs2) =>
            runLLMLoopAux maxIterations script toolExec signal fuel (i + 1) t2 msgs2

/-- `AgentLoop.runLLMLoop` from an initial history. -/
def runLLMLoop (maxIterations : Nat) (script : Nat → Except String LLMResponse)
    (toolExec : ToolCall → String) (signal : Nat → Bool)
    (history : List ChatMessage) : Except TurnError (String × Nat) :=
  runLLMLoopAux maxIterations script toolExec signal maxIterations 0 0 history

/-- The outbound replies a turn publishes, from
`AgentLoop.processMessage` (agent-loop.ts:350-364) and the catch-branch
of `AgentLoop.runDispatchPipeline` (agent-loop.ts:258-267) with
`AgentLoop.sendErrorResponse` (agent-loop.ts:1521-1529): a successful
loop publishes its reply unless the turn was aborted; a thrown error
publishes the single reply `❌ 处理消息时发生错误: <message>` unless the
turn was aborted. -/
def turnOutbound (result : Except TurnError (String × Nat)) (abortedAfter : Bool) :
    List String :=
  match result with
  | .ok (text, _) => if abortedAfter then [] else [text]
  | .error e => if abortedAfter then [] else ["❌ 处理消息时发生错误: " ++ e.message]

/-! ### The subagent manager (`src/src/core/subagent-manager.ts`) -/

/-- `OriginContext` (subagent-manager.ts:33-38). -/
structure OriginContext where
  sessionId : String
  channel : String
deriving DecidableEq, Repr

/-- How `runSubagentLoop` ends: a normal return with text, or a thrown
error (only the provider call can throw; tool errors are caught). -/
inductive SubExit where
  | normal (text : String)
  | thrown (msg : String)
deriving DecidableEq, Repr

/-- The truthiness filter `m.role === 'assistant' && m.content` on the
exhaustion fallback path (subagent-manager.ts:414-416). -/
def contentTruthy (m : ChatMessage) : Bool :=
  match m.content with
  | some c => c != ""
  | none => false

/-- The `.filter(...).pop()` of subagent-manager.ts:414-416: the last
assistant message with truthy content. -/
def lastTruthyAssistant (msgs : List ChatMessage) : Option ChatMessage :=
  (msgs.filter (fun m => m.role == .assistant && contentTruthy m)).getLast?

/-- `SubagentManager.runSubagentLoop` (subagent-manager.ts:329-420),
with the same conventions as `runLLMLoopAux`. Exhausting the iterations
does not throw: it falls back to the last truthy assistant content or the
over-iteration marker (subagent-manager.ts:413-419). -/
def runSubagentLoopAux (maxIterations : Nat) (script : Nat → Except String LLMResponse)
    (toolExec : ToolCall → String) (signal : Nat → Bool) :
    Nat → Nat → Nat → List ChatMessage → SubExit × Nat
  | 0, _, t, msgs =>
    (.normal (jsStringOr ((lastTruthyAssistant msgs).bind (fun m => m.content))
        ("[子代理超过最大迭代次数 (" ++ toString maxIterations ++ ")，任务可能未完全完成]")), t)
  | fuel + 1, i, t, msgs =>
    if signal t then (.normal "[子代理任务已取消]", t + 1)
    else
      match script i with
      | .error msg => (.thrown msg, t + 1)
      | .ok resp =>
        if signal (t + 1) then (.normal "[子代理任务已取消]", t + 2)
        else if resp.toolCalls.isEmpty then
          (.normal (jsStringOr resp.content "[子代理无输出]"), t + 2)
        else
          let msgs1 := msgs ++ [{ role := .assistant, content := resp.content,
                                  toolCalls := resp.toolCalls }]
          match runToolsPhase toolExec signal resp.toolCalls (t + 2) msgs1 with
          | .inl tCancel => (.normal "[子代理任务已取消]", tCancel)
          | .inr (t2, msgs2) =>
            runSubagentLoopAux maxIterations script toolExec signal fuel (i + 1) t2 msgs2

/-- `runSubagentLoop` from its initial message vector
`[{role: 'user', content: task}]` (subagent-manager.ts:335-337). -/
def runSubagentLoop (maxIterations : Nat) (script : Nat → Except String LLMResponse)
    (toolExec : ToolCall → String) (signal : Nat → Bool) (task : String) :
    SubExit × Nat :=
  runSubagentLoopAux maxIterations script toolExec signal maxIterations 0 0
    [{ role := .user, content := some task }]

/-- `SubagentManager.announceResult` (subagent-manager.ts:455-494): the
synthetic inbound message published to the origin session. -/
def subagentNotification (taskId label task result : String) (ok : Bool)
    (origin : OriginContext) (uuid : String) (now : Nat) : InboundMessage :=
  let statusText := if ok then "completed successfully" else "failed"
  { id := uuid,
    channel := origin.channel,
    sessionId := origin.sessionId,
    text := "[Subagent '" ++ label ++ "' " ++ statusText ++ "]\n\nTask: " ++ task
      ++ "\n\nResult:\n" ++ result
      ++ "\n\nSummarize this naturally for the user. Keep it brief (1-2 sentences).\nDo not mention technical details like \"subagent\" or task IDs.",
    sender := "system:subagent",
    timestamp := now,
    metadata := { isSubagentResult := true,
                  taskId := some taskId,
                  label := some label,
                  status := some (if ok then "ok" else "error") } }

/-- The tail of `SubagentManager.runSubagent` (subagent-manager.ts:279-324):
after the loop, a normal exit with the abort signal set returns without
notifying; a normal exit otherwise announces success with the result
text; a thrown exit is caught (`status = 'error'`, `resultText` the error
message) and announces failure — the aborted check is on the non-throwing
path only, so the throw path announces regardless of the signal. -/
def runSubagentOutcome (taskId label task : String) (exitKind : SubExit)
    (abortedAtEnd : Bool) (origin : OriginContext) (uuid : String) (now : Nat) :
    Option InboundMessage :=
  match exitKind with
  | .normal text =>
    if abortedAtEnd then none
    else some (subagentNotification taskId label task text true origin uuid now)
  | .thrown msg =>
    some (subagentNotification taskId label task msg false origin uuid now)

/-- `SubagentManager.runSubagent` (subagent-manager.ts:272-324): run the
restricted loop, then decide the announcement with the abort signal as
read after the loop. -/
def runSubagent (maxIterations : Nat) (script : Nat → Except String LLMResponse)
    (toolExec : ToolCall → String) (signal : Nat → Bool)
    (taskId label task : String) (origin : OriginContext) (uuid : String)
    (now : Nat) : Option InboundMessage :=
  let r := runSubagentLoop maxIterations script toolExec signal task
  runSubagentOutcome taskId label task r.1 (signal r.2) origin uuid now

/-- `SubagentStatus` (subagent-manager.ts:41). -/
inductive SubagentStatus where
  | running
  | completed
  | failed
  | cancelled
deriving DecidableEq, Repr

/-- The per-task state the manager mutates: the `status` field of
`SubagentTask` and the abort flag of its `AbortController`. -/
structure SubagentTaskState where
  status : SubagentStatus
  aborted : Bool := false
deriving DecidableEq, Repr

/-- The timeout callback (subagent-manager.ts:287-293): when the task is
still running, abort its controller — the status is not changed. -/
def timeoutFire (t : SubagentTaskState) : SubagentTaskState :=
  if t.status == .running then { t with aborted := true } else t

/-- `SubagentManager.cancelById` (subagent-manager.ts:200-210) on the
task's state: abort the controller and set the status to `cancelled`. -/
def cancelTask (t : SubagentTaskState) : SubagentTaskState :=
  if t.status == .running then { status := .cancelled, aborted := true } else t

/-- `SubagentManager.cleanup` (subagent-manager.ts:499-524) on the task's
state: a task still `running` is recorded `completed`. -/
def cleanupTask (t : SubagentTaskState) : SubagentTaskState :=
  if t.status == .running then { t with status := .completed } else t

/-- The status `SubagentManager.listTasks` (subagent-manager.ts:228-242)
reports for a task. -/
def listTaskStatus (t : SubagentTaskState) : SubagentStatus :=
  t.status

/-! ### The tool-call-chain invariant (spec §3)

`ChainValid l` holds when `l` parses as a sequence of blocks, each either
a plain message (not tool-role, no tool calls) or a chain: one assistant
message with `N` tool calls followed immediately by exactly `N` tool-role
messages. -/

/-- The tool-call-chain invariant on a message log. -/
inductive ChainValid : List ChatMessage → Prop
  | nil : ChainValid []
  | plain {m : ChatMessage} {rest : List ChatMessage} :
      m.role ≠ .tool → m.toolCalls = [] → ChainValid rest → ChainValid (m :: rest)
  | chain {a : ChatMessage} {ts rest : List ChatMessage} :
      a.role = .assistant → a.toolCalls ≠ [] → ts.length = a.toolCalls.length →
      (∀ t ∈ ts, t.role = .tool) → ChainValid rest → ChainValid (a :: (ts ++ rest))

/-! ### Auxiliary definitions used by the statements below -/

/-- The `compressedCount` already accumulated on a session's summary
(`session.summary?.compressedCount ?? 0` in `applyCompression`). -/
def prevCompressedCount (s : Session) : Nat :=
  match s.summary with
  | some sum => sum.compressedCount
  | none => 0

/-- The result text the end of `runSubagent` works with: the loop's
return value on a normal exit, the caught error's message on a throw. -/
def SubExit.resultText : SubExit → String
  | .normal text => text
  | .thrown msg => msg

/-- Whether the end of `runSubagent` sees status `'ok'` (normal exit) or
`'error'` (caught throw). -/
def SubExit.isOk : SubExit → Bool
  | .normal _ => true
  | .thrown _ => false

/-- The event trace of claim C5's scenario: a consumer's `dequeue` parks
on the empty open queue, its `checkClosed` microtask runs (the queue is
still open, so it does nothing), and then the bus is closed. -/
def pendingThenCloseTrace : List (QOp InboundMessage) :=
  [QOp.deq 0, QOp.check 0, QOp.close]

/-- The inbound-queue state after `pendingThenCloseTrace` from the fresh
queue. -/
def closedBusState : QState InboundMessage :=
  runOps pendingThenCloseTrace {}

/-- The queue is closed and empty, waiter 0 is no longer registered, its
microtask has run, and its promise has never settled: from such a state
no later event can settle waiter 0 (unless the same promise id is parked
again, which a blocked consumer cannot do). -/
def DeadFor0 (s : QState InboundMessage) : Prop :=
  s.closed = true ∧ s.queue = [] ∧ s.waiters = [] ∧ s.pendingChecks = [] ∧
    s.settled 0 = false

/-! ## Theorems -/

/-- C1: evaluation of `getMessagesToCompress` at the failing input. The
log is two adjacent complete tool-call chains — it satisfies the chain
invariant — yet with `keepRecent = 1` the returned slice is exactly the
first chain's assistant head without its tool result: the walk in
`findSafeSplitPoint` steps left of the second chain's assistant and lands
between the first chain's head and its tool message, so the slice splits
that chain (the slice itself violates the invariant), contradicting the
claim that the slice never includes the first message of an incomplete
chain. -/
theorem C1_compress_slice_splits_adjacent_chain :
    ChainValid [
      { role := .assistant, toolCalls := [{ id := "tc1", name := "f" }] },
      { role := .tool, content := some "r1", toolCallId := some "tc1" },
      { role := .assistant, toolCalls := [{ id := "tc2", name := "g" }] },
      { role := .tool, content := some "r2", toolCallId := some "tc2" }] ∧
    getMessagesToCompress
      (some { meta := { id := "s1", createdAt := 0, updatedAt := 0,
                        channel := "cli", messageCount := 4 },
              messages := [
                { role := .assistant, toolCalls := [{ id := "tc1", name := "f" }] },
                { role := .tool, content := some "r1", toolCallId := some "tc1" },
                { role := .assistant, toolCalls := [{ id := "tc2", name := "g" }] },
                { role := .tool, content := some "r2", toolCallId := some "tc2" }] })
      1 =
      some [{ role := .assistant, toolCalls := [{ id := "tc1", name := "f" }] }] ∧
    ¬ ChainValid [{ role := .assistant, toolCalls := [{ id := "tc1", name := "f" }] }] := by
  refine ⟨?_, by decide, ?_⟩
  · exact @ChainValid.chain
      { role := .assistant, toolCalls := [{ id := "tc1", name := "f" }] }
      [{ role := .tool, content := some "r1", toolCallId := some "tc1" }]
      [{ role := .assistant, toolCalls := [{ id := "tc2", name := "g" }] },
       { role := .tool, content := some "r2", toolCallId := some "tc2" }]
      rfl (by decide) (by decide) (by decide)
      (@ChainValid.chain
        { role := .assistant, toolCalls := [{ id := "tc2", name := "g" }] }
        [{ role := .tool, content := some "r2", toolCallId := some "tc2" }]
        []
        rfl (by decide) (by decide) (by decide) ChainValid.nil)
  · intro h
    generalize hl : [({ role := .assistant, toolCalls := [{ id := "tc1", name := "f" }] } : ChatMessage)] = l at h
    cases h with
    | nil => exact absurd hl.symm (by decide)
    | plain hrole htc hrest =>
      rename_i m rest
      have hm : m = { role := .assistant, toolCalls := [{ id := "tc1", name := "f" }] } :=
        (List.cons_eq_cons.mp hl).1.symm
      rw [hm] at htc
      exact absurd htc (by decide)
    | chain ha htc hlen hts hrest =>
      rename_i a ts rest
      have hcons := List.cons_eq_cons.mp hl
      have hnil : ts ++ rest = [] := hcons.2.symm
      have hts0 : ts = [] := List.append_eq_nil.mp hnil |>.1
      have ha0 : a = { role := .assistant, toolCalls := [{ id := "tc1", name := "f" }] } :=
        hcons.1.symm
      rw [hts0, ha0] at hlen
      exact absurd hlen (by decide)

/-- C2 counterexample: `applyCompression` is not idempotent. On a session
of three user messages, applying `("S", 1)` twice leaves a different
state than applying it once — the second call accumulates the delta again
(`compressedCount` 2 instead of 1) and drops one further head message. -/
theorem C2_applyCompression_not_idempotent :
    applyCompression
      (applyCompression
        (some { meta := { id := "s1", createdAt := 0, updatedAt := 0,
                          channel := "cli", messageCount := 3 },
                messages := [{ role := .user, content := some "m1" },
                             { role := .user, content := some "m2" },
                             { role := .user, content := some "m3" }] })
        "S" 1 7)
      "S" 1 7 ≠
    applyCompression
      (some { meta := { id := "s1", createdAt := 0, updatedAt := 0,
                        channel := "cli", messageCount := 3 },
              messages := [{ role := .user, content := some "m1" },
                           { role := .user, content := some "m2" },
                           { role := .user, content := some "m3" }] })
      "S" 1 7 := by
  decide

/-- C2 amended: calling `applyCompression` twice with the same summary
text and the same `compressed_count` `n` is not the same as calling it
once — it accumulates the delta twice (`prev + (n + n)`) and drops
`n + n` head messages; only for `n = 0` do the two coincide. `now`
stands for the `Date.now()` read of both calls. -/
theorem C2_applyCompression_twice_characterization
    (s : Session) (content : String) (n now : Nat) :
    applyCompression (applyCompression (some s) content n now) content n now =
      some { meta := { s.meta with
               messageCount := (s.messages.drop (n + n)).length,
               updatedAt := now },
             messages := s.messages.drop (n + n),
             summary := some { content := content,
                               compressedCount := prevCompressedCount s + (n + n),
                               lastUpdated := now } } := by
  cases s with
  | mk meta messages summary =>
    cases summary with
    | none => simp [applyCompression, prevCompressedCount, List.drop_drop]
    | some sum =>
      simp [applyCompression, prevCompressedCount, List.drop_drop]
      omega

/-- C4 counterexample: `publishOutbound` does not always return success.
With a registered handler for channel `"web"` that throws, the call
propagates the handler's error to its caller (`throw err` at
message-bus.ts:127) instead of swallowing it. -/
theorem C4_publishOutbound_rethrows :
    publishOutbound
      (fun c => if c = "web" then some (fun _ => Except.error "boom") else none)
      { id := "m1", channel := "web", sessionId := "s1", text := "hello", timestamp := 0 } ≠
      Except.ok () := by
  simp [publishOutbound]

/-- C4 amended: `publishOutbound` returns success when the channel has no
registered handler (the warning-and-return path) and when the handler
succeeds; when the registered handler throws, the error is logged and
rethrown to the caller of `publishOutbound`, not swallowed. -/
theorem C4_publishOutbound_characterization
    (handlers : String → Option (OutboundMessage → Except String Unit))
    (message : OutboundMessage) :
    (handlers message.channel = none → publishOutbound handlers message = .ok ()) ∧
    (∀ handler, handlers message.channel = some handler →
      handler message = .ok () → publishOutbound handlers message = .ok ()) ∧
    (∀ handler err, handlers message.channel = some handler →
      handler message = .error err → publishOutbound handlers message = .error err) := by
  refine ⟨fun h => ?_, fun handler h hok => ?_, fun handler err h herr => ?_⟩
  · simp [publishOutbound, h]
  · simp [publishOutbound, h, hok]
  · simp [publishOutbound, h, herr]

/-- C4 witness: the characterization applied to a concrete handler table
— the throwing handler's error comes back out, the missing handler
returns success. -/
theorem C4_publishOutbound_witness :
    publishOutbound
      (fun c => if c = "web" then some (fun _ => Except.error "boom") else none)
      { id := "m1", channel := "web", sessionId := "s1", text := "hello", timestamp := 0 } =
      Except.error "boom" ∧
    publishOutbound
      (fun c => if c = "web" then some (fun _ => Except.error "boom") else none)
      { id := "m2", channel := "cli", sessionId := "s1", text := "hi", timestamp := 0 } =
      Except.ok () := by
  constructor
  · exact (C4_publishOutbound_characterization
      (fun c => if c = "web" then some (fun _ => Except.error "boom") else none)
      { id := "m1", channel := "web", sessionId := "s1", text := "hello", timestamp := 0 }).2.2
      (fun _ => Except.error "boom") "boom" (by simp) rfl
  · exact (C4_publishOutbound_characterization
      (fun c => if c = "web" then some (fun _ => Except.error "boom") else none)
      { id := "m2", channel := "cli", sessionId := "s1", text := "hi", timestamp := 0 }).1
      (by simp)

/-- C6 counterexample: the inbound text a fired task publishes is not the
English literal the claim states: the source builds the prefix
`[定时任务: <description>]` (part_002:244), not `[Scheduled task: <description>]`. -/
theorem C6_trigger_text_not_english :
    (onTaskTrigger
      { id := "tid", sessionId := "s4", channel := "cli",
        cronExpression := "0 * * * *", description := "check",
        taskPrompt := "do it", enabled := true, createdAt := 0,
        runCount := 3, creatorUserId := some "u9" }
      5 "uuid-1").2.text ≠ "[Scheduled task: check]\ndo it" := by
  decide

/-- C6 amended: when an enabled scheduled task fires, `onTaskTrigger`
publishes an `InboundMessage` with sender `"scheduler"`, text equal to
`[定时任务: <description>]` (the Chinese rendering of "Scheduled task")
followed by a newline and the task prompt, and metadata carrying the
task id and the creator user id; the in-memory task has `lastRunAt` set
to the trigger time and `runCount` incremented before the publish. -/
theorem C6_onTaskTrigger_characterization
    (task : ScheduledTask) (now : Nat) (uuid : String)
    (_henabled : task.enabled = true) :
    (onTaskTrigger task now uuid).2.sender = "scheduler" ∧
    (onTaskTrigger task now uuid).2.text =
      "[定时任务: " ++ task.description ++ "]\n" ++ task.taskPrompt ∧
    (onTaskTrigger task now uuid).2.sessionId = task.sessionId ∧
    (onTaskTrigger task now uuid).2.channel = task.channel ∧
    (onTaskTrigger task now uuid).2.metadata.scheduledTaskId = some task.id ∧
    (onTaskTrigger task now uuid).2.metadata.creatorUserId = task.creatorUserId ∧
    (onTaskTrigger task now uuid).1.lastRunAt = some now ∧
    (onTaskTrigger task now uuid).1.runCount = task.runCount + 1 := by
  simp [onTaskTrigger, String.append_assoc]

/-- C6 witness: the characterization at a concrete enabled task. -/
theorem C6_onTaskTrigger_witness :
    (onTaskTrigger
      { id := "tid", sessionId := "s4", channel := "cli",
        cronExpression := "0 * * * *", description := "check",
        taskPrompt := "do it", enabled := true, createdAt := 0,
        runCount := 3, creatorUserId := some "u9" }
      5 "uuid-1").2.sender = "scheduler" ∧
    (onTaskTrigger
      { id := "tid", sessionId := "s4", channel := "cli",
        cronExpression := "0 * * * *", description := "check",
        taskPrompt := "do it", enabled := true, createdAt := 0,
        runCount := 3, creatorUserId := some "u9" }
      5 "uuid-1").2.metadata.creatorUserId = some "u9" := by
  have h := C6_onTaskTrigger_characterization
    { id := "tid", sessionId := "s4", channel := "cli",
      cronExpression := "0 * * * *", description := "check",
      taskPrompt := "do it", enabled := true, createdAt := 0,
      runCount := 3, creatorUserId := some "u9" }
    5 "uuid-1" rfl
  exact ⟨h.1, h.2.2.2.2.2.1⟩

/-- C9: publishing an inbound message after the bus has been closed
throws the queue's closed error (`AsyncQueue.enqueue`,
async-queue.ts:30-33) instead of enqueuing or silently dropping the
message. -/
theorem C9_publishInbound_after_close_throws
    (q : QState InboundMessage) (message : InboundMessage)
    (hclosed : q.closed = true) :
    publishInbound q message = .error "队列已关闭，无法入队" := by
  simp [publishInbound, enqueue, hclosed]

/-- C9 witness: publishing onto a freshly closed bus throws. -/
theorem C9_publishInbound_witness :
    publishInbound (busClose {})
      { id := "i1", channel := "cli", sessionId := "s1", text := "hi",
        sender := "u1", timestamp := 0 } =
      .error "队列已关闭，无法入队" :=
  C9_publishInbound_after_close_throws (busClose {})
    { id := "i1", channel := "cli", sessionId := "s1", text := "hi",
      sender := "u1", timestamp := 0 } rfl

/-- C8 counterexample: a subagent whose loop exits by throwing while the
abort signal is set still publishes a (failure) announcement — the
aborted check at subagent-manager.ts:308 sits on the non-throwing path
only, so "abort signal set at the end ⟹ no inbound message" is false. -/
theorem C8_thrown_while_aborted_still_announces :
    runSubagentOutcome "id1" "lab" "tsk" (.thrown "boom") true
      { sessionId := "s1", channel := "cli" } "uuid-1" 0 ≠ none := by
  simp [runSubagentOutcome]

/-- C8 amended: when a subagent run ends without its abort signal set,
exactly one synthetic inbound message goes to the origin session, with
sender `system:subagent` and the templated body (`[Subagent '<label>'
completed successfully|failed]`, the original task, the result text or
error message, and the fixed summarize-briefly instructions). When the
abort signal is set at the end, no message is published provided the
loop exited normally; a loop that exits by throwing publishes the
failure announcement even then. -/
theorem C8_announcement_characterization
    (maxIterations : Nat) (script : Nat → Except String LLMResponse)
    (toolExec : ToolCall → String) (signal : Nat → Bool)
    (taskId label task : String) (origin : OriginContext) (uuid : String)
    (now : Nat) :
    (signal (runSubagentLoop maxIterations script toolExec signal task).2 = false →
      runSubagent maxIterations script toolExec signal taskId label task origin uuid now =
        some (subagentNotification taskId label task
          (runSubagentLoop maxIterations script toolExec signal task).1.resultText
          (runSubagentLoop maxIterations script toolExec signal task).1.isOk
          origin uuid now)) ∧
    (signal (runSubagentLoop maxIterations script toolExec signal task).2 = true →
      (∀ text, (runSubagentLoop maxIterations script toolExec signal task).1 = .normal text →
        runSubagent maxIterations script toolExec signal taskId label task origin uuid now = none) ∧
      (∀ msg, (runSubagentLoop maxIterations script toolExec signal task).1 = .thrown msg →
        runSubagent maxIterations script toolExec signal taskId label task origin uuid now =
          some (subagentNotification taskId label task msg false origin uuid now))) ∧
    (∀ result ok, (subagentNotification taskId label task result ok origin uuid now).sender =
        "system:subagent" ∧
      (subagentNotification taskId label task result ok origin uuid now).sessionId =
        origin.sessionId ∧
      (subagentNotification taskId label task result ok origin uuid now).text =
        "[Subagent '" ++ label ++ "' " ++ (if ok then "completed successfully" else "failed")
          ++ "]\n\nTask: " ++ task ++ "\n\nResult:\n" ++ result
          ++ "\n\nSummarize this naturally for the user. Keep it brief (1-2 sentences).\nDo not mention technical details like \"subagent\" or task IDs.") := by
  refine ⟨fun hsig => ?_, fun hsig => ⟨fun text hexit => ?_, fun msg hexit => ?_⟩,
    fun result ok => ⟨rfl, rfl, rfl⟩⟩
  · unfold runSubagent
    cases hexit : (runSubagentLoop maxIterations script toolExec signal task).1 with
    | normal text => simp [runSubagentOutcome, hsig, hexit, SubExit.resultText, SubExit.isOk]
    | thrown msg => simp [runSubagentOutcome, hsig, hexit, SubExit.resultText, SubExit.isOk]
  · unfold runSubagent
    simp [runSubagentOutcome, hsig, hexit]
  · unfold runSubagent
    simp [runSubagentOutcome, hexit]

/-- C8 witness: a one-iteration run with no cancellation — the provider
returns plain text, so the manager publishes exactly the success
notification for that text. -/
theorem C8_announcement_witness :
    runSubagent 3 (fun _ => .ok { content := some "done" }) (fun _ => "r")
      (fun _ => false) "id1" "lab" "tsk" { sessionId := "s1", channel := "cli" }
      "uuid-1" 0 =
      some (subagentNotification "id1" "lab" "tsk" "done" true
        { sessionId := "s1", channel := "cli" } "uuid-1" 0) := by
  have h := (C8_announcement_characterization 3
    (fun _ => .ok { content := some "done" }) (fun _ => "r") (fun _ => false)
    "id1" "lab" "tsk" { sessionId := "s1", channel := "cli" } "uuid-1" 0).1 rfl
  simpa using h

/-- Helper: when the provider never throws, the subagent loop always
exits normally — only the `script i = .error` branch produces a
`.thrown` exit; cancellation checkpoints, terminal text and the
iteration-exhaustion fallback all return `.normal`. -/
theorem subagentLoopAux_no_throw
    (maxIterations : Nat) (script : Nat → Except String LLMResponse)
    (toolExec : ToolCall → String) (signal : Nat → Bool)
    (hOk : ∀ i, ∃ r, script i = .ok r) :
    ∀ fuel i t msgs, ∃ text tEnd,
      runSubagentLoopAux maxIterations script toolExec signal fuel i t msgs =
        (.normal text, tEnd) := by
  intro fuel
  induction fuel with
  | zero => intro i t msgs; exact ⟨_, _, rfl⟩
  | succ n ih =>
    intro i t msgs
    obtain ⟨r, hr⟩ := hOk i
    by_cases h1 : signal t
    · exact ⟨"[子代理任务已取消]", t + 1, by simp [runSubagentLoopAux, h1]⟩
    · by_cases h2 : signal (t + 1)
      · exact ⟨"[子代理任务已取消]", t + 2, by simp [runSubagentLoopAux, h1, hr, h2]⟩
      · by_cases h3 : r.toolCalls.isEmpty
        · exact ⟨jsStringOr r.content "[子代理无输出]", t + 2,
            by simp [runSubagentLoopAux, h1, hr, h2, h3]⟩
        · cases htools : runToolsPhase toolExec signal r.toolCalls (t + 2)
            (msgs ++ [{ role := .assistant, content := r.content,
                        toolCalls := r.toolCalls }]) with
          | inl tCancel =>
            exact ⟨"[子代理任务已取消]", tCancel,
              by simp [runSubagentLoopAux, h1, hr, h2, h3, htools]⟩
          | inr p =>
            obtain ⟨text, tEnd, hrec⟩ := ih (i + 1) p.1 p.2
            refine ⟨text, tEnd, ?_⟩
            simpa [runSubagentLoopAux, h1, hr, h2, h3, htools] using hrec

/-- Helper: `runSubagentLoop` form of `subagentLoopAux_no_throw`. -/
theorem subagentLoop_no_throw
    (maxIterations : Nat) (script : Nat → Except String LLMResponse)
    (toolExec : ToolCall → String) (signal : Nat → Bool) (task : String)
    (hOk : ∀ i, ∃ r, script i = .ok r) :
    ∃ text tEnd,
      runSubagentLoop maxIterations script toolExec signal task =
        (.normal text, tEnd) :=
  subagentLoopAux_no_throw maxIterations script toolExec signal hOk
    maxIterations 0 0 [{ role := .user, content := some task }]

/-- C10 counterexample: a timed-out subagent is distinguishable from an
explicitly cancelled one at the public interface: the timeout callback
only aborts the controller and leaves the status `running`, so `cleanup`
records `completed`, while `cancelById` sets `cancelled` — `listTasks`
reports different statuses for the two. -/
theorem C10_timeout_vs_cancel_distinguishable :
    listTaskStatus (cleanupTask (timeoutFire { status := .running })) ≠
      listTaskStatus (cleanupTask (cancelTask { status := .running })) := by
  decide

/-- C10 amended: a subagent whose timeout fires is aborted through the
same `AbortController` (the same abort flag `cancelById` sets); when the
provider does not throw, the loop exits normally, so with the signal set
at the end no completion or failure announcement is published; and
`cleanup` records the final status `completed` (not `failed`) because the
timeout callback left the status `running`. It differs from an
explicitly cancelled subagent in the status `listTasks` reports
(`completed` versus `cancelled`). -/
theorem C10_timeout_behavior
    (maxIterations : Nat) (script : Nat → Except String LLMResponse)
    (toolExec : ToolCall → String) (signal : Nat → Bool)
    (taskId label task : String) (origin : OriginContext) (uuid : String)
    (now : Nat)
    (hOk : ∀ i, ∃ r, script i = .ok r)
    (hAborted : signal (runSubagentLoop maxIterations script toolExec signal task).2 = true) :
    runSubagent maxIterations script toolExec signal taskId label task origin uuid now = none ∧
    (timeoutFire { status := .running }).aborted = true ∧
    (cancelTask { status := .running }).aborted = true ∧
    (timeoutFire { status := .running }).status = .running ∧
    listTaskStatus (cleanupTask (timeoutFire { status := .running })) = .completed ∧
    listTaskStatus (cleanupTask (timeoutFire { status := .running })) ≠ .failed := by
  refine ⟨?_, by decide, by decide, by decide, by decide, by decide⟩
  obtain ⟨text, tEnd, hloop⟩ :=
    subagentLoop_no_throw maxIterations script toolExec signal task hOk
  rw [hloop] at hAborted
  unfold runSubagent
  rw [hloop]
  simp [runSubagentOutcome, hAborted]

/-- C10 witness: a concrete run whose abort signal becomes set exactly at
the loop's final checkpoint (the timeout firing during the last provider
call) publishes nothing, and its cleanup status is `completed`. -/
theorem C10_timeout_witness :
    runSubagent 3 (fun _ => .ok { content := some "x" }) (fun _ => "r")
      (fun t => decide (2 ≤ t)) "id1" "lab" "tsk"
      { sessionId := "s1", channel := "cli" } "uuid-1" 0 = none ∧
    listTaskStatus (cleanupTask (timeoutFire { status := .running })) = .completed := by
  have h := C10_timeout_behavior 3 (fun _ => .ok { content := some "x" })
    (fun _ => "r") (fun t => decide (2 ≤ t)) "id1" "lab" "tsk"
    { sessionId := "s1", channel := "cli" } "uuid-1" 0
    (fun _ => ⟨{ content := some "x" }, rfl⟩) (by decide)
  exact ⟨h.1, h.2.2.2.2.1⟩

/-- Helper: a `contains` check survives appending a different element. -/
theorem contains_append_single_false (l : List Nat) (id j : Nat)
    (h : l.contains j = false) (hne : id ≠ j) : (l ++ [id]).contains j = false := by
  simp_all
  omega

/-- Helper: one queue event preserves the dead state for waiter 0. An
`enqueue` throws on the closed queue; another consumer's `dequeue`
rejects immediately (settling its own promise, not waiter 0); a stray
microtask finds nothing pending; `close` is idempotent. -/
theorem qstep_preserves_deadFor0 (op : QOp InboundMessage)
    (s : QState InboundMessage) (hdead : DeadFor0 s) (hop : op ≠ QOp.deq 0) :
    DeadFor0 (op.step s) := by
  obtain ⟨hc, hq, hw, hp, hs⟩ := hdead
  cases op with
  | enq x =>
    simpa [QOp.step, enqueue, hc] using ⟨hc, hq, hw, hp, hs⟩
  | deq id =>
    have hid : id ≠ 0 := fun h => hop (by rw [h])
    have hstep : QOp.step (QOp.deq id) s = rejectWaiter id s := by
      simp [QOp.step, dequeueStart, hq, hc]
    rw [hstep]
    by_cases hsettled : s.settled id
    · simpa [rejectWaiter, hsettled] using ⟨hc, hq, hw, hp, hs⟩
    · rw [show rejectWaiter id s = { s with rejected := s.rejected ++ [id] } from by
        unfold rejectWaiter; rw [if_neg hsettled]]
      refine ⟨hc, hq, hw, hp, ?_⟩
      have h' := hs
      simp only [QState.settled, Bool.or_eq_false_iff] at h' ⊢
      exact ⟨h'.1, contains_append_single_false s.rejected id 0 h'.2 hid⟩
  | check id =>
    simpa [QOp.step, runCheckClosed, hp] using ⟨hc, hq, hw, hp, hs⟩
  | close =>
    simpa [QOp.step, closeQueue] using ⟨rfl, hq, rfl, hp, hs⟩

/-- Helper: no sequence of queue events that avoids re-parking promise 0
can settle it once the state is dead for 0. -/
theorem qrun_preserves_deadFor0 (ops : List (QOp InboundMessage)) :
    ∀ s : QState InboundMessage, DeadFor0 s →
      (∀ op ∈ ops, op ≠ QOp.deq 0) → DeadFor0 (runOps ops s) := by
  induction ops with
  | nil => intro s hdead _; exact hdead
  | cons op rest ih =>
    intro s hdead hops
    have hstep := qstep_preserves_deadFor0 op s hdead (hops op (by simp))
    have hrest : ∀ o ∈ rest, o ≠ QOp.deq 0 := fun o ho => hops o (by simp [ho])
    simpa [runOps] using ih (op.step s) hstep hrest

/-- C5: the pending dequeue is never settled. After the trace "`dequeue`
parks on the empty open queue; its `checkClosed` microtask runs while the
queue is still open (doing nothing); `close` runs" — the state models
async-queue.ts faithfully: `close` sets the flag and clears the waiter
list, but its notification loop is `void waiter`, a no-op, so the parked
promise has not settled; and no later event (enqueue throws on the closed
queue, other consumers settle their own promises, no microtask remains)
can ever settle it. The consumer of `inboundMessages()` therefore blocks
forever instead of observing end-of-stream, contradicting the claim and
the method's own documentation. -/
theorem C5_pending_dequeue_never_settles :
    closedBusState.closed = true ∧
    closedBusState.settled 0 = false ∧
    (∀ ops : List (QOp InboundMessage), (∀ op ∈ ops, op ≠ QOp.deq 0) →
      (runOps ops closedBusState).settled 0 = false) := by
  refine ⟨rfl, rfl, fun ops hops => ?_⟩
  have hdead : DeadFor0 closedBusState := ⟨rfl, rfl, rfl, rfl, rfl⟩
  exact (qrun_preserves_deadFor0 ops closedBusState hdead hops).2.2.2.2

/-- C5 witness: after the close, a producer retries `publishInbound` and
another consumer id parks and is rejected — waiter 0 still never
settles. -/
theorem C5_pending_dequeue_witness :
    (runOps [QOp.enq { id := "i1", channel := "cli", sessionId := "s1",
                       text := "late", sender := "u1", timestamp := 9 },
             QOp.deq 1, QOp.check 1]
      closedBusState).settled 0 = false :=
  C5_pending_dequeue_never_settles.2.2
    [QOp.enq { id := "i1", channel := "cli", sessionId := "s1",
               text := "late", sender := "u1", timestamp := 9 },
     QOp.deq 1, QOp.check 1]
    (by decide)

/-- Helper: with no cancellation, the tool-execution loop always
completes and returns the advanced checkpoint counter and messages. -/
theorem runToolsPhase_no_cancel (toolExec : ToolCall → String)
    (signal : Nat → Bool) (hsig : ∀ u, signal u = false) :
    ∀ tcs t msgs, ∃ t2 msgs2,
      runToolsPhase toolExec signal tcs t msgs = .inr (t2, msgs2) := by
  intro tcs
  induction tcs with
  | nil => intro t msgs; exact ⟨t, msgs, rfl⟩
  | cons tc rest ih =>
    intro t msgs
    obtain ⟨t2, msgs2, h⟩ := ih (t + 1)
      (msgs ++ [{ role := .tool, content := some (toolExec tc),
                  toolCallId := some tc.id, name := some tc.name }])
    exact ⟨t2, msgs2, by simp [runToolsPhase, hsig, h]⟩

/-- Helper: when every consulted provider response carries tool calls and
the turn is never cancelled, the LLM loop exhausts its fuel and throws
the iteration-limit error. `i + fuel = maxIterations` relates the 0-based
iteration to the remaining fuel. -/
theorem runLLMLoopAux_iteration_limit
    (maxIterations : Nat) (script : Nat → Except String LLMResponse)
    (toolExec : ToolCall → String) (signal : Nat → Bool)
    (hsig : ∀ u, signal u = false)
    (hscript : ∀ i, i < maxIterations → ∃ r, script i = .ok r ∧ r.toolCalls ≠ []) :
    ∀ fuel i t msgs, i + fuel = maxIterations →
      runLLMLoopAux maxIterations script toolExec signal fuel i t msgs =
        .error (.iterationLimit ("超过最大迭代次数 (" ++ toString maxIterations ++ ")")) := by
  intro fuel
  induction fuel with
  | zero => intro i t msgs _; rfl
  | succ n ih =>
    intro i t msgs hsum
    have hi : i < maxIterations := by omega
    obtain ⟨r, hr, htc⟩ := hscript i hi
    have hempty : r.toolCalls.isEmpty = false := by
      cases hrc : r.toolCalls with
      | nil => exact absurd hrc htc
      | cons a l => rfl
    obtain ⟨t2, msgs2, htools⟩ := runToolsPhase_no_cancel toolExec signal hsig
      r.toolCalls (t + 2)
      (msgs ++ [{ role := .assistant, content := r.content, toolCalls := r.toolCalls }])
    have hrec := ih (i + 1) t2 msgs2 (by omega)
    simp [runLLMLoopAux, hsig, hr, hempty, htools, hrec]

/-- C7: a turn whose provider responses carry tool calls on every one of
the `max_iterations` consulted iterations (and which is never cancelled)
fails with the iteration-limit `AgentLoopError`, returns no assistant
text as the reply, and publishes exactly one outbound reply — the error
reply `❌ 处理消息时发生错误: 超过最大迭代次数 (N)`, which begins with
`❌`. -/
theorem C7_iteration_limit_turn
    (maxIterations : Nat) (script : Nat → Except String LLMResponse)
    (toolExec : ToolCall → String) (history : List ChatMessage)
    (hscript : ∀ i, i < maxIterations → ∃ r, script i = .ok r ∧ r.toolCalls ≠ []) :
    runLLMLoop maxIterations script toolExec (fun _ => false) history =
      .error (.iterationLimit ("超过最大迭代次数 (" ++ toString maxIterations ++ ")")) ∧
    (∀ text tEnd,
      runLLMLoop maxIterations script toolExec (fun _ => false) history ≠ .ok (text, tEnd)) ∧
    turnOutbound (runLLMLoop maxIterations script toolExec (fun _ => false) history) false =
      ["❌" ++ (" 处理消息时发生错误: " ++ ("超过最大迭代次数 (" ++ toString maxIterations ++ ")"))] := by
  have hloop := runLLMLoopAux_iteration_limit maxIterations script toolExec
    (fun _ => false) (fun _ => rfl) hscript maxIterations 0 0 history (by omega)
  have hmain : runLLMLoop maxIterations script toolExec (fun _ => false) history =
      .error (.iterationLimit ("超过最大迭代次数 (" ++ toString maxIterations ++ ")")) := hloop
  refine ⟨hmain, fun text tEnd h => by rw [hmain] at h; exact Except.noConfusion h, ?_⟩
  rw [hmain]
  have hsplit : ("❌ 处理消息时发生错误: " : String) ++
      ("超过最大迭代次数 (" ++ toString maxIterations ++ ")") =
      "❌" ++ (" 处理消息时发生错误: " ++ ("超过最大迭代次数 (" ++ toString maxIterations ++ ")")) := by
    conv_rhs => rw [← String.append_assoc]
    rw [show ("❌" ++ " 处理消息时发生错误: " : String) = "❌ 处理消息时发生错误: " from by decide]
  exact congrArg (fun s => [s]) hsplit

/-- C7 witness: a two-iteration budget with a provider that always
requests one tool call — the loop fails with the limit error and the
only outbound reply is the `❌`-prefixed error text. -/
theorem C7_iteration_limit_witness :
    runLLMLoop 2 (fun _ => .ok { toolCalls := [{ id := "tc1", name := "f" }] })
      (fun _ => "r") (fun _ => false) [] =
      .error (.iterationLimit "超过最大迭代次数 (2)") ∧
    turnOutbound
      (runLLMLoop 2 (fun _ => .ok { toolCalls := [{ id := "tc1", name := "f" }] })
        (fun _ => "r") (fun _ => false) []) false =
      ["❌ 处理消息时发生错误: 超过最大迭代次数 (2)"] := by
  have h := C7_iteration_limit_turn 2
    (fun _ => .ok { toolCalls := [{ id := "tc1", name := "f" }] })
    (fun _ => "r") []
    (fun i _ => ⟨{ toolCalls := [{ id := "tc1", name := "f" }] }, rfl, by decide⟩)
  refine ⟨?_, ?_⟩
  · rw [h.1,
      show ("超过最大迭代次数 (" ++ toString 2 ++ ")" : String) = "超过最大迭代次数 (2)" from by decide]
  · rw [h.2.2]; decide

/-- Helper: `dropLeadingTools` is dropping `countLeadingTools` elements. -/
theorem dropLeadingTools_eq_drop_count (l : List ChatMessage) :
    dropLeadingTools l = l.drop (countLeadingTools l) := by
  induction l with
  | nil => rfl
  | cons x rest ih =>
    by_cases hx : x.role == .tool
    · simp [dropLeadingTools, countLeadingTools, hx, ih]
    · simp [dropLeadingTools, countLeadingTools, hx]

/-- Helper: after dropping the maximal tool prefix, the head (if any) is
not a tool message. -/
theorem head_drop_countLeadingTools (l : List ChatMessage) :
    ∀ m, (l.drop (countLeadingTools l)).head? = some m → m.role ≠ .tool := by
  induction l with
  | nil => intro m hm; simp at hm
  | cons x rest ih =>
    intro m hm
    by_cases hx : x.role == .tool
    · rw [show countLeadingTools (x :: rest) = countLeadingTools rest + 1 from by
        simp [countLeadingTools, hx]] at hm
      exact ih m hm
    · rw [show countLeadingTools (x :: rest) = 0 from by
        simp [countLeadingTools, hx]] at hm
      simp at hm
      rw [← hm]
      simpa using hx

/-- Helper: the result of `sanitizeMessageStart` never begins with a
tool-role message, whatever the input. -/
theorem sanitizeMessageStart_head_not_tool (xs : List ChatMessage) :
    ∀ m, (sanitizeMessageStart xs).head? = some m → m.role ≠ .tool := by
  intro m hm
  unfold sanitizeMessageStart at hm
  rw [dropLeadingTools_eq_drop_count] at hm
  cases hdrop : xs.drop (countLeadingTools xs) with
  | nil => rw [hdrop] at hm; simp [sanitizeChainCheck] at hm
  | cons first tail =>
    rw [hdrop] at hm
    have hfirst : first.role ≠ .tool := by
      apply head_drop_countLeadingTools xs first
      rw [hdrop]; rfl
    simp only [sanitizeChainCheck] at hm
    by_cases hass : (first.role == .assistant && !first.toolCalls.isEmpty)
    · rw [if_pos hass] at hm
      by_cases hcnt : countLeadingTools tail < first.toolCalls.length
      · rw [if_pos hcnt] at hm
        exact head_drop_countLeadingTools tail m hm
      · rw [if_neg hcnt] at hm
        simp at hm
        rw [← hm]
        exact hfirst
    · rw [if_neg hass] at hm
      simp at hm
      rw [← hm]
      exact hfirst

/-- Helper: dropping leading tools jumps over a pure-tool prefix. -/
theorem dropLeadingTools_append_tools {ts r : List ChatMessage}
    (hts : ∀ x ∈ ts, x.role = .tool) :
    dropLeadingTools (ts ++ r) = dropLeadingTools r := by
  induction ts with
  | nil => rfl
  | cons x rest ih =>
    have hx : x.role = Role.tool := hts x (by simp)
    simp only [List.cons_append, dropLeadingTools, hx]
    exact ih (fun y hy => hts y (by simp [hy]))

/-- Helper: a nonempty chain-valid list starts with a non-tool message. -/
theorem chainValid_head_not_tool {r : List ChatMessage} (hr : ChainValid r) :
    ∀ m, r.head? = some m → m.role ≠ .tool := by
  intro m hm
  cases hr with
  | nil => simp at hm
  | plain hrole htc hrest =>
    simp at hm
    rw [← hm]
    assumption
  | chain ha htc hlen hts hrest =>
    simp at hm
    rw [← hm, ha]
    simp

/-- Helper: dropping leading tools from a chain-valid list is the
identity. -/
theorem dropLeadingTools_of_chainValid {r : List ChatMessage}
    (hr : ChainValid r) : dropLeadingTools r = r := by
  cases r with
  | nil => rfl
  | cons m rest =>
    have hm : m.role ≠ .tool := chainValid_head_not_tool hr m rfl
    simp [dropLeadingTools, hm]

/-- Helper: a list whose head is not a tool has no leading tools. -/
theorem countLeadingTools_eq_zero {r : List ChatMessage}
    (hr : ∀ m, r.head? = some m → m.role ≠ .tool) : countLeadingTools r = 0 := by
  cases r with
  | nil => rfl
  | cons m rest =>
    have := hr m rfl
    simp [countLeadingTools, this]

/-- Helper: counting leading tools over a pure-tool prefix followed by a
list with a non-tool head gives exactly the prefix's length. -/
theorem countLeadingTools_append_tools {ts r : List ChatMessage}
    (hts : ∀ x ∈ ts, x.role = .tool)
    (hr : ∀ m, r.head? = some m → m.role ≠ .tool) :
    countLeadingTools (ts ++ r) = ts.length := by
  induction ts with
  | nil => simpa using countLeadingTools_eq_zero hr
  | cons x rest ih =>
    have hx : x.role = Role.tool := hts x (by simp)
    simp only [List.cons_append, countLeadingTools, hx, List.length_cons]
    simp [ih (fun y hy => hts y (by simp [hy]))]

/-- Helper: every suffix of a chain-valid list is a (possibly empty)
run of tool messages — the tail of a chain the cut landed inside —
followed by a chain-valid remainder. -/
theorem chainValid_drop_decomposition {l : List ChatMessage}
    (hl : ChainValid l) :
    ∀ n, ∃ ts r, l.drop n = ts ++ r ∧ (∀ x ∈ ts, x.role = .tool) ∧ ChainValid r := by
  induction hl with
  | nil =>
    intro n
    exact ⟨[], [], by simp, by simp, ChainValid.nil⟩
  | plain hrole htc hrest ih =>
    rename_i m rest
    intro n
    cases n with
    | zero =>
      exact ⟨[], m :: rest, rfl, by simp, ChainValid.plain hrole htc hrest⟩
    | succ k =>
      simpa using ih k
  | chain ha htc hlen hts hrest ih =>
    rename_i a ts0 rest
    intro n
    cases n with
    | zero =>
      exact ⟨[], a :: (ts0 ++ rest), rfl, by simp,
        ChainValid.chain ha htc hlen hts hrest⟩
    | succ k =>
      simp only [List.drop_succ_cons]
      rw [List.drop_append_eq_append_drop]
      by_cases hk : k ≤ ts0.length
      · refine ⟨ts0.drop k, rest, ?_, ?_, hrest⟩
        · rw [show k - ts0.length = 0 from by omega]
          rfl
        · intro x hx
          exact hts x (List.mem_of_mem_drop hx)
      · obtain ⟨ts', r', heq, hts', hr'⟩ := ih (k - ts0.length)
        refine ⟨ts', r', ?_, hts', hr'⟩
        rw [List.drop_eq_nil_of_le (by omega), List.nil_append, heq]

/-- Helper: the sanitiser applied to a tool-run prefix plus a chain-valid
remainder returns exactly the remainder: the leading tools are dropped,
and the head chain (if the remainder starts with one) is complete, so
nothing else is removed. -/
theorem sanitize_tools_chainValid {ts r : List ChatMessage}
    (hts : ∀ x ∈ ts, x.role = .tool) (hr : ChainValid r) :
    sanitizeMessageStart (ts ++ r) = r := by
  unfold sanitizeMessageStart
  rw [dropLeadingTools_append_tools hts, dropLeadingTools_of_chainValid hr]
  cases r with
  | nil => rfl
  | cons first tail =>
    simp only [sanitizeChainCheck]
    by_cases hass : (first.role == .assistant && !first.toolCalls.isEmpty)
    · rw [if_pos hass]
      have hfirst : first.role = .assistant ∧ first.toolCalls ≠ [] := by
        simp only [Bool.and_eq_true, beq_iff_eq, Bool.not_eq_true'] at hass
        refine ⟨hass.1, ?_⟩
        intro h
        rw [h] at hass
        simp [List.isEmpty] at hass
      cases hr with
      | plain hrole htc hrest => exact absurd htc hfirst.2
      | chain ha htc hlen hts' hrest =>
        rename_i ts' rest
        have hcnt : countLeadingTools (ts' ++ rest) = ts'.length :=
          countLeadingTools_append_tools hts' (chainValid_head_not_tool hrest)
        rw [hcnt, hlen]
        simp
    · rw [if_neg hass]

/-- Helper: the window passed to the sanitiser is always a suffix (a
`drop`) of the in-memory log. -/
theorem historyWindow_is_drop (s : Session) (mw : Nat) :
    ∃ k, historyWindow s mw = s.messages.drop k := by
  unfold historyWindow
  by_cases hlen : s.messages.length ≤ availableSlots s mw
  · exact ⟨0, by rw [if_pos hlen]; rfl⟩
  · by_cases h0 : availableSlots s mw = 0
    · exact ⟨0, by rw [if_neg hlen]; unfold jsSliceNeg; rw [if_pos h0]; rfl⟩
    · exact ⟨s.messages.length - availableSlots s mw,
        by rw [if_neg hlen]; unfold jsSliceNeg; rw [if_neg h0]⟩

/-- Helper: with a summary injected and `memoryWindow ≥ 2`, the window
keeps at most `memoryWindow - 1` messages. (For `memoryWindow = 1` the
reserved slot makes `availableSlots = 0` and `slice(-0)` returns the
whole log, so the bound needs `memoryWindow ≥ 2`.) -/
theorem historyWindow_length_le (s : Session) (mw : Nat)
    (hsum : (summaryText s).isSome = true) (hmw : 2 ≤ mw) :
    (historyWindow s mw).length ≤ mw - 1 := by
  have haS : availableSlots s mw = mw - 1 := by
    unfold availableSlots
    rw [if_pos hsum]
  unfold historyWindow
  by_cases hlen : s.messages.length ≤ availableSlots s mw
  · rw [if_pos hlen]
    omega
  · rw [if_neg hlen]
    unfold jsSliceNeg
    rw [if_neg (by omega)]
    simp only [List.length_drop]
    omega

/-- Helper: the sanitiser only removes messages from the front — its
result is never longer than its input. -/
theorem sanitizeMessageStart_length_le (xs : List ChatMessage) :
    (sanitizeMessageStart xs).length ≤ xs.length := by
  unfold sanitizeMessageStart
  rw [dropLeadingTools_eq_drop_count]
  have hdl : (xs.drop (countLeadingTools xs)).length ≤ xs.length := by
    simp only [List.length_drop]
    omega
  cases hdrop : xs.drop (countLeadingTools xs) with
  | nil => simp [sanitizeChainCheck]
  | cons first tail =>
    rw [hdrop] at hdl
    simp only [sanitizeChainCheck]
    by_cases hass : (first.role == .assistant && !first.toolCalls.isEmpty)
    · rw [if_pos hass]
      by_cases hcnt : countLeadingTools tail < first.toolCalls.length
      · rw [if_pos hcnt]
        have : (tail.drop (countLeadingTools tail)).length ≤ tail.length := by
          simp only [List.length_drop]
          omega
        simp only [List.length_cons] at hdl
        omega
      · rw [if_neg hcnt]
        exact hdl
    · rw [if_neg hass]
      exact hdl

/-- Helper: in a chain-valid list starting with an assistant that carries
`N` tool calls, the next `N` elements exist and are all tool messages. -/
theorem chainValid_head_chain {r : List ChatMessage} (hr : ChainValid r)
    (a : ChatMessage) (ha : r.head? = some a) (_hrole : a.role = .assistant)
    (htc : a.toolCalls ≠ []) :
    ((r.drop 1).take a.toolCalls.length).length = a.toolCalls.length ∧
    ∀ x ∈ (r.drop 1).take a.toolCalls.length, x.role = .tool := by
  cases hr with
  | nil => simp at ha
  | plain hrole' htc' hrest =>
    rename_i m rest
    simp at ha
    rw [ha] at htc'
    exact absurd htc' htc
  | chain ha' htc' hlen hts hrest =>
    rename_i a' ts rest
    simp at ha
    rw [← ha]
    simp only [List.drop_succ_cons, List.drop_zero]
    constructor
    · rw [← hlen, List.take_left]
    · intro x hx
      rw [← hlen, List.take_left] at hx
      exact hts x hx

/-- C3 counterexample, two parts. (a) A session with a summary whose
content is the empty string: `getHistory` tests `summary?.content` for
truthiness, so the summary exists but no synthetic system message is
injected — the first element is the user message. (b) With
`memory_window = 1` and a nonempty summary, `availableSlots` is `-0` and
JavaScript `slice(-0)` returns the whole log, so two log messages follow
the summary message instead of at most `memory_window - 1 = 0`. -/
theorem C3_getHistory_counterexample :
    (getHistory
      (some { meta := { id := "s1", createdAt := 0, updatedAt := 0,
                        channel := "cli", messageCount := 1 },
              messages := [{ role := .user, content := some "hi" }],
              summary := some { content := "", compressedCount := 0, lastUpdated := 0 } })
      5).head? = some { role := .user, content := some "hi" } ∧
    ({ role := .user, content := some "hi" } : ChatMessage).role ≠ .system ∧
    (getHistory
      (some { meta := { id := "s1", createdAt := 0, updatedAt := 0,
                        channel := "cli", messageCount := 2 },
              messages := [{ role := .user, content := some "a" },
                           { role := .user, content := some "b" }],
              summary := some { content := "S", compressedCount := 0, lastUpdated := 0 } })
      1).length = 3 := by
  refine ⟨?_, by decide, ?_⟩ <;> rfl

/-- C3 amended: for a session whose in-memory log satisfies the
tool-call-chain invariant, `getHistory` never begins with a tool-role
message; if the first non-summary element (the head of the sanitised
window) is an assistant carrying `N` tool calls, it is immediately
followed by at least `N` tool-role messages; and when a summary with
nonempty content exists and `memory_window ≥ 2`, the first element is
the synthetic system message carrying the summary and at most
`memory_window - 1` log messages follow it. (An empty-content summary
injects nothing, and with `memory_window = 1` the `slice(-0)` quirk
returns the whole log — see the counterexample.) -/
theorem C3_getHistory_characterization (s : Session) (memoryWindow : Nat)
    (hvalid : ChainValid s.messages) :
    (∀ m, (getHistory (some s) memoryWindow).head? = some m → m.role ≠ .tool) ∧
    (∀ a, (sanitizeMessageStart (historyWindow s memoryWindow)).head? = some a →
      a.role = .assistant → a.toolCalls ≠ [] →
      (((sanitizeMessageStart (historyWindow s memoryWindow)).drop 1).take
          a.toolCalls.length).length = a.toolCalls.length ∧
      ∀ x ∈ ((sanitizeMessageStart (historyWindow s memoryWindow)).drop 1).take
          a.toolCalls.length, x.role = .tool) ∧
    (∀ c, summaryText s = some c → 2 ≤ memoryWindow →
      (getHistory (some s) memoryWindow).head? = some (summarySystemMessage c) ∧
      (sanitizeMessageStart (historyWindow s memoryWindow)).length ≤ memoryWindow - 1) := by
  obtain ⟨k, hk⟩ := historyWindow_is_drop s memoryWindow
  obtain ⟨ts, r, hdecomp, hts, hr⟩ := chainValid_drop_decomposition hvalid k
  have hsan : sanitizeMessageStart (historyWindow s memoryWindow) = r := by
    rw [hk, hdecomp]
    exact sanitize_tools_chainValid hts hr
  refine ⟨?_, ?_, ?_⟩
  · intro m hm
    cases hsum : summaryText s with
    | some c =>
      simp only [getHistory, hsum, List.cons_append, List.head?] at hm
      rw [← Option.some.injEq] at hm
      simp at hm
      rw [← hm]
      simp [summarySystemMessage]
    | none =>
      simp only [getHistory, hsum, List.nil_append] at hm
      exact sanitizeMessageStart_head_not_tool (historyWindow s memoryWindow) m hm
  · intro a ha hrole htc
    rw [hsan] at ha ⊢
    exact chainValid_head_chain hr a ha hrole htc
  · intro c hsum hmw
    constructor
    · simp [getHistory, hsum]
    · have h1 := sanitizeMessageStart_length_le (historyWindow s memoryWindow)
      have h2 := historyWindow_length_le s memoryWindow (by simp [hsum]) hmw
      omega

/-- C3 witness: a session whose log is a user message followed by one
complete chain, with a nonempty summary and window 5 — the history
starts with the synthetic summary message, never with a tool, and the
body fits in four slots. -/
theorem C3_getHistory_witness :
    (getHistory
      (some { meta := { id := "s1", createdAt := 0, updatedAt := 0,
                        channel := "cli", messageCount := 3 },
              messages := [{ role := .user, content := some "hi" },
                           { role := .assistant, toolCalls := [{ id := "tc1", name := "f" }] },
                           { role := .tool, content := some "r1", toolCallId := some "tc1" }],
              summary := some { content := "S", compressedCount := 2, lastUpdated := 0 } })
      5).head? = some (summarySystemMessage "S") ∧
    (sanitizeMessageStart (historyWindow
      { meta := { id := "s1", createdAt := 0, updatedAt := 0,
                  channel := "cli", messageCount := 3 },
        messages := [{ role := .user, content := some "hi" },
                     { role := .assistant, toolCalls := [{ id := "tc1", name := "f" }] },
                     { role := .tool, content := some "r1", toolCallId := some "tc1" }],
        summary := some { content := "S", compressedCount := 2, lastUpdated := 0 } }
      5)).length ≤ 4 := by
  have h := C3_getHistory_characterization
    { meta := { id := "s1", createdAt := 0, updatedAt := 0,
                channel := "cli", messageCount := 3 },
      messages := [{ role := .user, content := some "hi" },
                   { role := .assistant, toolCalls := [{ id := "tc1", name := "f" }] },
                   { role := .tool, content := some "r1", toolCallId := some "tc1" }],
      summary := some { content := "S", compressedCount := 2, lastUpdated := 0 } }
    5
    (ChainValid.plain (by decide) (by decide)
      (@ChainValid.chain
        { role := .assistant, toolCalls := [{ id := "tc1", name := "f" }] }
        [{ role := .tool, content := some "r1", toolCallId := some "tc1" }]
        []
        rfl (by decide) (by decide) (by decide) ChainValid.nil))
  have h3 := h.2.2 "S" (by decide) (by decide)
  exact ⟨h3.1, h3.2⟩

end Sophon
